import Mathlib

/-!
Verification of the peer message dispatch loop (`src/peer/mod.rs`).

The Rust code defines:

* `PeerSocket` — an enum `Listen(SocketAddr) | Connect(NodeAddr)` with a
  derived `Display` rendering `--listen={0}` / `--connect={0}`;
* `Handler<T>` — a trait with `handle(message) -> Result<(), Error>` and
  `handle_err(error) -> Result<(), Error>`;
* `Listener::run` — one iteration body: receive and decode the next message
  (`recv_message(&unmarshaller)?`, the `?` converting the transport/decode
  error into `H::Error`), then call `handler.handle(msg)`;
* `Listener::try_run_loop` — `loop { match self.run() { Ok(_) => (),
  Err(err) => self.handler.handle_err(err)? } }`.

Embedding choices.  The receiver together with the unmarshaller is an
external collaborator: we model the sequence of outcomes of successive
`recv_message` calls as a list of `RecvEvent` values (a decoded message, or
a transport/decode failure carrying a value of an abstract presentation
error type `P`).  The `From` conversion applied by the `?` operator is an
explicit function `fromP : P → E`.  The handler is a pair of pure state
transformers on an abstract handler-state type `S`, mirroring the `&mut
self` receivers of `handle` / `handle_err`.  Running the loop on a finite
event list returns the trace of handler callbacks made, the list of receive
events actually consumed (each consumed event is one completed
`recv_message` call), the final handler state, and the outcome: `none` when
the trace is exhausted with the loop still running (the next receive would
block), or `some r` when `try_run_loop` returned `r`.
-/

deriving instance DecidableEq for Except

namespace Peer

/-- Outcome of one `recv_message` call on the peer receiver: either a
successfully received and decoded message, or a transport/decode failure
carrying a presentation-layer error of type `P`. -/
inductive RecvEvent (M P : Type) where
  | msg (m : M)
  | fail (p : P)
deriving DecidableEq, Repr

/-- One handler callback performed by the loop: `Listener::run` calling
`handler.handle(msg)`, or `try_run_loop` calling `handler.handle_err(err)`. -/
inductive CallEvent (M E : Type) where
  | callHandle (m : M)
  | callHandleErr (e : E)
deriving DecidableEq, Repr

/-- The `Handler` trait of `src/peer/mod.rs`: `handle` consumes one decoded
message, `handleErr` consumes one error; both may mutate the handler state
(modelled by the explicit `S` component) and return `Result<(), Self::Error>`. -/
structure Handler (S M E : Type) where
  handle : S → M → S × Except E Unit
  handleErr : S → E → S × Except E Unit

/-- `Listener::run` on one receive outcome: `recv_message(&unmarshaller)?`
followed by `handler.handle(msg)`.  A receive/decode failure `p` is
converted by the `?` operator into `H::Error` via `fromP` and returned;
a decoded message is passed to `handle` exactly once, and `handle`'s own
result is the result of `run`.  The middle component records the handler
callbacks made inside `run`. -/
def Listener.run {S M P E : Type} (fromP : P → E) (H : Handler S M E)
    (s : S) (ev : RecvEvent M P) : S × List (CallEvent M E) × Except E Unit :=
  match ev with
  | RecvEvent.fail p => (s, [], Except.error (fromP p))
  | RecvEvent.msg m =>
    match H.handle s m with
    | (s1, r) => (s1, [CallEvent.callHandle m], r)

/-- One iteration of the `loop` in `Listener::try_run_loop`: call `run`;
on `Ok` continue; on `Err(err)` call `handler.handle_err(err)?`, where the
`?` terminates the loop with `handle_err`'s error.  The result is the new
handler state, the callbacks made this iteration, and `some e2` exactly
when the loop terminates this iteration returning `Err(e2)`. -/
def loopStep {S M P E : Type} (fromP : P → E) (H : Handler S M E)
    (s : S) (ev : RecvEvent M P) : S × List (CallEvent M E) × Option E :=
  match Listener.run fromP H s ev with
  | (s1, cs, Except.ok _) => (s1, cs, none)
  | (s1, cs, Except.error e) =>
    match H.handleErr s1 e with
    | (s2, Except.ok _) => (s2, cs ++ [CallEvent.callHandleErr e], none)
    | (s2, Except.error e2) => (s2, cs ++ [CallEvent.callHandleErr e], some e2)

/-- Observable result of running `try_run_loop` against a finite receiver
trace: the handler callbacks in order, the receive events consumed (one per
completed `recv_message` call, in order), the final handler state, and the
loop's return value — `none` while it is still running (next receive would
block on an exhausted trace), `some r` when `try_run_loop` returned `r`. -/
structure LoopResult (S M P E : Type) where
  calls : List (CallEvent M E)
  recvs : List (RecvEvent M P)
  state : S
  outcome : Option (Except E Unit)
deriving DecidableEq, Repr

/-- `Listener::try_run_loop`, run against a finite trace of receive
outcomes.  Each iteration consumes exactly one receive event (one blocking
`recv_message` call) and then performs its callbacks via `loopStep`;
the loop terminates only through the `?` on `handle_err`. -/
def tryRunLoop {S M P E : Type} (fromP : P → E) (H : Handler S M E) :
    S → List (RecvEvent M P) → LoopResult S M P E
  | s, [] => ⟨[], [], s, none⟩
  | s, ev :: evs =>
    match loopStep fromP H s ev with
    | (s1, cs, none) =>
      let r := tryRunLoop fromP H s1 evs
      ⟨cs ++ r.calls, ev :: r.recvs, r.state, r.outcome⟩
    | (s1, cs, some e2) => ⟨cs, [ev], s1, some (Except.error e2)⟩

/-- `PeerSocket` from `src/peer/mod.rs`: either listen on a local socket
address or connect to a remote node address.  The address payload types are
external (`std::net::SocketAddr`, `internet2::addr::NodeAddr`), so the type
is parametric in them. -/
inductive PeerSocket (A N : Type) where
  | Listen (addr : A)
  | Connect (id : N)
deriving DecidableEq, Repr

/-- The derived `Display` of `PeerSocket`: `#[display("--listen={0}")]` /
`#[display("--connect={0}")]`, with `{0}` the `Display` rendering of the
payload, modelled by the functions `showA` / `showN` for the external
address types. -/
def PeerSocket.display {A N : Type} (showA : A → String) (showN : N → String) :
    PeerSocket A N → String
  | PeerSocket.Listen a => "--listen=" ++ showA a
  | PeerSocket.Connect n => "--connect=" ++ showN n

/-! Unfolding lemmas for the loop -/

theorem tryRunLoop_nil {S M P E : Type} (fromP : P → E) (H : Handler S M E) (s : S) :
    tryRunLoop fromP H s ([] : List (RecvEvent M P)) = ⟨[], [], s, none⟩ := rfl

theorem tryRunLoop_cons_continue {S M P E : Type} {fromP : P → E} {H : Handler S M E}
    {s s1 : S} {ev : RecvEvent M P} {cs : List (CallEvent M E)} {evs : List (RecvEvent M P)}
    (h : loopStep fromP H s ev = (s1, cs, none)) :
    tryRunLoop fromP H s (ev :: evs) =
      ⟨cs ++ (tryRunLoop fromP H s1 evs).calls, ev :: (tryRunLoop fromP H s1 evs).recvs,
       (tryRunLoop fromP H s1 evs).state, (tryRunLoop fromP H s1 evs).outcome⟩ := by
  simp [tryRunLoop, h]

theorem tryRunLoop_cons_stop {S M P E : Type} {fromP : P → E} {H : Handler S M E}
    {s s1 : S} {ev : RecvEvent M P} {cs : List (CallEvent M E)} {e2 : E}
    {evs : List (RecvEvent M P)}
    (h : loopStep fromP H s ev = (s1, cs, some e2)) :
    tryRunLoop fromP H s (ev :: evs) = ⟨cs, [ev], s1, some (Except.error e2)⟩ := by
  simp [tryRunLoop, h]

theorem loopStep_msg_ok {S M P E : Type} {fromP : P → E} {H : Handler S M E}
    {s s1 : S} {m : M} (h : H.handle s m = (s1, Except.ok ())) :
    loopStep fromP H s (RecvEvent.msg m) = (s1, [CallEvent.callHandle m], none) := by
  simp [loopStep, Listener.run, h]

theorem loopStep_msg_err_ok {S M P E : Type} {fromP : P → E} {H : Handler S M E}
    {s s1 s2 : S} {m : M} {e : E}
    (h1 : H.handle s m = (s1, Except.error e))
    (h2 : H.handleErr s1 e = (s2, Except.ok ())) :
    loopStep fromP H s (RecvEvent.msg m) =
      (s2, [CallEvent.callHandle m, CallEvent.callHandleErr e], none) := by
  simp [loopStep, Listener.run, h1, h2]

theorem loopStep_msg_err_fatal {S M P E : Type} {fromP : P → E} {H : Handler S M E}
    {s s1 s2 : S} {m : M} {e e2 : E}
    (h1 : H.handle s m = (s1, Except.error e))
    (h2 : H.handleErr s1 e = (s2, Except.error e2)) :
    loopStep fromP H s (RecvEvent.msg m) =
      (s2, [CallEvent.callHandle m, CallEvent.callHandleErr e], some e2) := by
  simp [loopStep, Listener.run, h1, h2]

theorem loopStep_fail_ok {S M P E : Type} {fromP : P → E} {H : Handler S M E}
    {s s2 : S} {p : P}
    (h2 : H.handleErr s (fromP p) = (s2, Except.ok ())) :
    loopStep fromP H s (RecvEvent.fail p) =
      (s2, [CallEvent.callHandleErr (fromP p)], none) := by
  simp [loopStep, Listener.run, h2]

theorem loopStep_fail_fatal {S M P E : Type} {fromP : P → E} {H : Handler S M E}
    {s s2 : S} {p : P} {e2 : E}
    (h2 : H.handleErr s (fromP p) = (s2, Except.error e2)) :
    loopStep fromP H s (RecvEvent.fail p) =
      (s2, [CallEvent.callHandleErr (fromP p)], some e2) := by
  simp [loopStep, Listener.run, h2]

/-! Concrete handler fixtures for witnesses and counterexamples -/

/-- Handler whose `handle` always returns `Err 7` and whose `handle_err`
absorbs every error. -/
def appFail : Handler Unit Nat Nat :=
  { handle := fun s _ => (s, Except.error 7),
    handleErr := fun s _ => (s, Except.ok ()) }

/-- Handler whose `handle` always returns `Err 5` and whose `handle_err`
escalates error `e` as `Err (e + 1)`. -/
def appFailFatal : Handler Unit Nat Nat :=
  { handle := fun s _ => (s, Except.error 5),
    handleErr := fun s e => (s, Except.error (e + 1)) }

/-- Handler whose `handle` succeeds and whose `handle_err` escalates error
`e` as `Err (e + 1)`. -/
def recvFatal : Handler Unit Nat Nat :=
  { handle := fun s _ => (s, Except.ok ()),
    handleErr := fun s e => (s, Except.error (e + 1)) }

/-- Handler that accumulates every handled message and every absorbed error
into its `Nat` state and always succeeds. -/
def absorbAll : Handler Nat Nat Nat :=
  { handle := fun s m => (s + m, Except.ok ()),
    handleErr := fun s e => (s + e, Except.ok ()) }

/-- A presentation-layer failure of the receive/decode step: either a
transport fault or a decode fault, each carrying a code.  Used to
instantiate the abstract error parameter `P` in witnesses. -/
inductive WireFault where
  | transport (code : Nat)
  | decode (code : Nat)
deriving DecidableEq, Repr

/-- The `From` conversion of `WireFault` into the handler error type:
both variants convert to their code, as the `internet2` presentation error
converts into `H::Error` without telling the loop which kind it was. -/
def wireFaultCode : WireFault → Nat
  | WireFault.transport c => c
  | WireFault.decode c => c

/-! Claims -/

/-- C1 counterexample: with a handler whose `handle` always returns
`Err 7` and whose `handle_err` absorbs every error, on the trace
`[msg 1, msg 2]` the loop does not terminate with error 7 after the first
message: error 7 is passed to `handle_err` (twice), a second receive
attempt is made, and the loop is still running at the end of the trace. -/
theorem handle_error_not_immediate_exit :
    (appFail.handle () 1).2 = Except.error 7 ∧
    tryRunLoop id appFail () [RecvEvent.msg 1, RecvEvent.msg 2] =
      ⟨[CallEvent.callHandle 1, CallEvent.callHandleErr 7,
        CallEvent.callHandle 2, CallEvent.callHandleErr 7],
       [RecvEvent.msg 1, RecvEvent.msg 2], (), none⟩ ∧
    CallEvent.callHandleErr 7 ∈
      (tryRunLoop id appFail () [RecvEvent.msg 1, RecvEvent.msg 2]).calls ∧
    (tryRunLoop id appFail () [RecvEvent.msg 1, RecvEvent.msg 2]).recvs.length = 2 ∧
    (tryRunLoop id appFail () [RecvEvent.msg 1, RecvEvent.msg 2]).outcome = none := by
  refine ⟨rfl, rfl, ?_, rfl, rfl⟩
  decide

/-- C1 (amended): when `handle` returns `Err e` on message `m`, the error
`e` is routed to `handle_err` in the same iteration; the loop then
terminates — returning `handle_err`'s error, not `e` itself — exactly when
`handle_err` escalates, and otherwise continues with further receive
attempts on the rest of the trace. -/
theorem handle_error_routed_to_handleErr {S M P E : Type} (fromP : P → E)
    (H : Handler S M E) (s s1 : S) (m : M) (e : E) (rest : List (RecvEvent M P))
    (h : H.handle s m = (s1, Except.error e)) :
    tryRunLoop fromP H s (RecvEvent.msg m :: rest) =
      match H.handleErr s1 e with
      | (s2, Except.ok _) =>
        ⟨CallEvent.callHandle m :: CallEvent.callHandleErr e ::
           (tryRunLoop fromP H s2 rest).calls,
         RecvEvent.msg m :: (tryRunLoop fromP H s2 rest).recvs,
         (tryRunLoop fromP H s2 rest).state, (tryRunLoop fromP H s2 rest).outcome⟩
      | (s2, Except.error e2) =>
        ⟨[CallEvent.callHandle m, CallEvent.callHandleErr e], [RecvEvent.msg m], s2,
         some (Except.error e2)⟩ := by
  rcases h2 : H.handleErr s1 e with ⟨s2, r2⟩
  cases r2 with
  | ok u =>
    cases u
    rw [tryRunLoop_cons_continue (loopStep_msg_err_ok h h2)]
    rfl
  | error e2 =>
    exact tryRunLoop_cons_stop (loopStep_msg_err_fatal h h2)

/-- Witness for `handle_error_routed_to_handleErr`: the always-failing
handler whose `handle_err` escalates `e` as `e + 1`, on trace `[msg 3]`. -/
theorem handle_error_routed_to_handleErr_witness :
    tryRunLoop id appFailFatal () [RecvEvent.msg 3] =
      ⟨[CallEvent.callHandle 3, CallEvent.callHandleErr 5], [RecvEvent.msg 3], (),
       some (Except.error 6)⟩ := by
  have h := handle_error_routed_to_handleErr id appFailFatal () () 3 5 [] rfl
  exact h

/-- C2: if a receive/decode attempt fails with presentation error `p` and
`handle_err` on the converted error returns `Err e2`, then `try_run_loop`
returns exactly `e2`, `handle_err` was called exactly once, and no further
receive attempt occurs: whatever the rest of the trace, only the failing
event is consumed. -/
theorem fatal_recv_error_returns_exactly {S M P E : Type} (fromP : P → E)
    (H : Handler S M E) (s s2 : S) (p : P) (e2 : E) (rest : List (RecvEvent M P))
    (h : H.handleErr s (fromP p) = (s2, Except.error e2)) :
    tryRunLoop fromP H s (RecvEvent.fail p :: rest) =
      ⟨[CallEvent.callHandleErr (fromP p)], [RecvEvent.fail p], s2,
       some (Except.error e2)⟩ :=
  tryRunLoop_cons_stop (loopStep_fail_fatal h)

/-- Witness for `fatal_recv_error_returns_exactly`: a transport fault with
code 5 hits a handler that escalates it as 6; the pending message 2 is
never received. -/
theorem fatal_recv_error_returns_exactly_witness :
    tryRunLoop id recvFatal () [RecvEvent.fail 5, RecvEvent.msg 2] =
      ⟨[CallEvent.callHandleErr 5], [RecvEvent.fail 5], (),
       some (Except.error 6)⟩ :=
  fatal_recv_error_returns_exactly id recvFatal () () 5 6 [RecvEvent.msg 2] rfl

/-- C6: `try_run_loop` never returns a success value: for every handler,
state and receiver trace, its outcome is never `Ok (())` — it is still
running, or it has returned an error. -/
theorem tryRunLoop_never_ok {S M P E : Type} (fromP : P → E) (H : Handler S M E)
    (s : S) (evs : List (RecvEvent M P)) :
    (tryRunLoop fromP H s evs).outcome ≠ some (Except.ok ()) := by
  induction evs generalizing s with
  | nil => simp [tryRunLoop]
  | cons ev evs ih =>
    rcases h : loopStep fromP H s ev with ⟨s1, cs, r⟩
    cases r with
    | none =>
      rw [tryRunLoop_cons_continue h]
      exact ih s1
    | some e2 =>
      rw [tryRunLoop_cons_stop h]
      simp

/-- Witness for `tryRunLoop_never_ok` at a concrete handler and trace. -/
theorem tryRunLoop_never_ok_witness :
    (tryRunLoop id absorbAll 0 [RecvEvent.msg 1]).outcome ≠
      some (Except.ok ()) :=
  tryRunLoop_never_ok id absorbAll 0 [RecvEvent.msg 1]

/-- C7: on the receiver trace `[msg A, msg B, fail e, msg C]`, when
`handle` succeeds on `A`, `B`, `C` and `handle_err` absorbs the failure,
the loop produces exactly the callback trace
`handle A, handle B, handle_err e, handle C`, in that order, and keeps
running. -/
theorem trace_scenario_msgs_fail_msg {S M P E : Type} (fromP : P → E)
    (H : Handler S M E) (s s1 s2 s3 s4 : S) (A B C : M) (e : P)
    (hA : H.handle s A = (s1, Except.ok ()))
    (hB : H.handle s1 B = (s2, Except.ok ()))
    (hE : H.handleErr s2 (fromP e) = (s3, Except.ok ()))
    (hC : H.handle s3 C = (s4, Except.ok ())) :
    tryRunLoop fromP H s
        [RecvEvent.msg A, RecvEvent.msg B, RecvEvent.fail e, RecvEvent.msg C] =
      ⟨[CallEvent.callHandle A, CallEvent.callHandle B,
        CallEvent.callHandleErr (fromP e), CallEvent.callHandle C],
       [RecvEvent.msg A, RecvEvent.msg B, RecvEvent.fail e, RecvEvent.msg C],
       s4, none⟩ := by
  rw [tryRunLoop_cons_continue (loopStep_msg_ok hA),
      tryRunLoop_cons_continue (loopStep_msg_ok hB),
      tryRunLoop_cons_continue (loopStep_fail_ok hE),
      tryRunLoop_cons_continue (loopStep_msg_ok hC),
      tryRunLoop_nil]
  rfl

/-- Witness for `trace_scenario_msgs_fail_msg`: the accumulating handler on
messages 10, 20, 30 with an absorbed transport fault 5 in between. -/
theorem trace_scenario_msgs_fail_msg_witness :
    tryRunLoop id absorbAll 0
        [RecvEvent.msg 10, RecvEvent.msg 20, RecvEvent.fail 5, RecvEvent.msg 30] =
      ⟨[CallEvent.callHandle 10, CallEvent.callHandle 20,
        CallEvent.callHandleErr 5, CallEvent.callHandle 30],
       [RecvEvent.msg 10, RecvEvent.msg 20, RecvEvent.fail 5, RecvEvent.msg 30],
       65, none⟩ :=
  trace_scenario_msgs_fail_msg id absorbAll 0 10 30 35 65 10 20 30 5
    rfl rfl rfl rfl

/-- Handler state after `handle_err` has absorbed, in order, the converted
errors of the failures `ps`. -/
def absorbState {S M P E : Type} (fromP : P → E) (H : Handler S M E) (s : S)
    (ps : List P) : S :=
  ps.foldl (fun t p => (H.handleErr t (fromP p)).1) s

/-- C3: if the receiver fails `K` times in a row (`ps` of length `K`) and
`handle_err` returns `Ok` every time it is called, the loop does not
terminate during those failures: it calls `handle_err` exactly once per
failure, in order, consumes each failing receive, and goes on to make the
receive attempts of the rest of the trace. -/
theorem absorbed_failures_continue {S M P E : Type} (fromP : P → E)
    (H : Handler S M E) (hOk : ∀ t e, (H.handleErr t e).2 = Except.ok ())
    (s : S) (ps : List P) (rest : List (RecvEvent M P)) :
    tryRunLoop fromP H s (ps.map RecvEvent.fail ++ rest) =
      ⟨(ps.map fun p => CallEvent.callHandleErr (fromP p)) ++
         (tryRunLoop fromP H (absorbState fromP H s ps) rest).calls,
       ps.map RecvEvent.fail ++
         (tryRunLoop fromP H (absorbState fromP H s ps) rest).recvs,
       (tryRunLoop fromP H (absorbState fromP H s ps) rest).state,
       (tryRunLoop fromP H (absorbState fromP H s ps) rest).outcome⟩ := by
  induction ps generalizing s with
  | nil => simp [absorbState]
  | cons p ps ih =>
    have hE : H.handleErr s (fromP p) =
        ((H.handleErr s (fromP p)).1, Except.ok ()) := by
      rcases hq : H.handleErr s (fromP p) with ⟨t, r⟩
      have h2 := hOk s (fromP p)
      rw [hq] at h2
      simp only [] at h2
      subst h2
      rfl
    rw [List.map_cons, List.cons_append,
        tryRunLoop_cons_continue (loopStep_fail_ok hE), ih]
    have hs : absorbState fromP H s (p :: ps) =
        absorbState fromP H (H.handleErr s (fromP p)).1 ps := rfl
    rw [hs]
    rfl

/-- Witness for `absorbed_failures_continue`: the accumulating handler
absorbs failures 3 and 4, then handles message 10. -/
theorem absorbed_failures_continue_witness :
    tryRunLoop id absorbAll 0
        [RecvEvent.fail 3, RecvEvent.fail 4, RecvEvent.msg 10] =
      ⟨[CallEvent.callHandleErr 3, CallEvent.callHandleErr 4,
        CallEvent.callHandle 10],
       [RecvEvent.fail 3, RecvEvent.fail 4, RecvEvent.msg 10], 17, none⟩ := by
  have h := absorbed_failures_continue id absorbAll (fun t e => rfl) 0 [3, 4]
    [RecvEvent.msg 10]
  simpa using h

/-- Handler state after `handle` has consumed, in order, the messages `ms`. -/
def handleState {S M E : Type} (H : Handler S M E) (s : S) (ms : List M) : S :=
  ms.foldl (fun t m => (H.handle t m).1) s

/-- C4: for every sequence of `N` successfully received and decoded
messages (`ms` of length `N`) on which `handle` succeeds, `handle` is
invoked exactly `N` times, once per message, in exactly receipt order (the
callback trace is the message list itself mapped to `handle` calls, so
nothing is skipped, duplicated, or reordered), and the loop continues with
the rest of the trace. -/
theorem messages_handled_in_order {S M P E : Type} (fromP : P → E)
    (H : Handler S M E) (hOk : ∀ t m, (H.handle t m).2 = Except.ok ())
    (s : S) (ms : List M) (rest : List (RecvEvent M P)) :
    tryRunLoop fromP H s (ms.map RecvEvent.msg ++ rest) =
      ⟨ms.map CallEvent.callHandle ++
         (tryRunLoop fromP H (handleState H s ms) rest).calls,
       ms.map RecvEvent.msg ++
         (tryRunLoop fromP H (handleState H s ms) rest).recvs,
       (tryRunLoop fromP H (handleState H s ms) rest).state,
       (tryRunLoop fromP H (handleState H s ms) rest).outcome⟩ := by
  induction ms generalizing s with
  | nil => simp [handleState]
  | cons m ms ih =>
    have hM : H.handle s m = ((H.handle s m).1, Except.ok ()) := by
      rcases hq : H.handle s m with ⟨t, r⟩
      have h2 := hOk s m
      rw [hq] at h2
      simp only [] at h2
      subst h2
      rfl
    rw [List.map_cons, List.cons_append,
        tryRunLoop_cons_continue (loopStep_msg_ok hM), ih]
    have hs : handleState H s (m :: ms) =
        handleState H (H.handle s m).1 ms := rfl
    rw [hs]
    rfl

/-- Witness for `messages_handled_in_order`: the accumulating handler
handles 1, 2, 3 in order with nothing after them. -/
theorem messages_handled_in_order_witness :
    tryRunLoop id absorbAll 0 [RecvEvent.msg 1, RecvEvent.msg 2, RecvEvent.msg 3] =
      ⟨[CallEvent.callHandle 1, CallEvent.callHandle 2, CallEvent.callHandle 3],
       [RecvEvent.msg 1, RecvEvent.msg 2, RecvEvent.msg 3], 6, none⟩ := by
  have h := messages_handled_in_order id absorbAll (fun t m => rfl) 0 [1, 2, 3]
    ([] : List (RecvEvent Nat Nat))
  simpa using h

/-- C5: a receive/decode failure reaches `handle_err` through one uniform
path: the first callback after the failure is always `handle_err` on the
converted error, and two failures that convert to the same handler error —
for instance a transport fault and a decode fault with the same conversion —
produce identical callback traces, final states and outcomes.  The loop
never branches on which kind of failure occurred. -/
theorem failure_kind_irrelevant {S M P E : Type} (fromP : P → E)
    (H : Handler S M E) (s : S) (p q : P) (rest : List (RecvEvent M P))
    (h : fromP p = fromP q) :
    (tryRunLoop fromP H s (RecvEvent.fail p :: rest)).calls.head? =
        some (CallEvent.callHandleErr (fromP p)) ∧
    (tryRunLoop fromP H s (RecvEvent.fail p :: rest)).calls =
        (tryRunLoop fromP H s (RecvEvent.fail q :: rest)).calls ∧
    (tryRunLoop fromP H s (RecvEvent.fail p :: rest)).state =
        (tryRunLoop fromP H s (RecvEvent.fail q :: rest)).state ∧
    (tryRunLoop fromP H s (RecvEvent.fail p :: rest)).outcome =
        (tryRunLoop fromP H s (RecvEvent.fail q :: rest)).outcome := by
  rcases hE : H.handleErr s (fromP p) with ⟨s1, r⟩
  have hE2 : H.handleErr s (fromP q) = (s1, r) := by rw [← h]; exact hE
  cases r with
  | ok u =>
    cases u
    rw [tryRunLoop_cons_continue (loopStep_fail_ok hE),
        tryRunLoop_cons_continue (loopStep_fail_ok hE2)]
    simp [h]
  | error e2 =>
    rw [tryRunLoop_cons_stop (loopStep_fail_fatal hE),
        tryRunLoop_cons_stop (loopStep_fail_fatal hE2)]
    simp [h]

/-- Witness for `failure_kind_irrelevant`: a transport fault and a decode
fault with the same code 3 against the accumulating handler. -/
theorem failure_kind_irrelevant_witness :
    (tryRunLoop wireFaultCode absorbAll 0
        [RecvEvent.fail (WireFault.transport 3), RecvEvent.msg 5]).calls.head? =
      some (CallEvent.callHandleErr 3) ∧
    (tryRunLoop wireFaultCode absorbAll 0
        [RecvEvent.fail (WireFault.transport 3), RecvEvent.msg 5]).calls =
      (tryRunLoop wireFaultCode absorbAll 0
        [RecvEvent.fail (WireFault.decode 3), RecvEvent.msg 5]).calls := by
  have h := failure_kind_irrelevant wireFaultCode absorbAll 0
    (WireFault.transport 3) (WireFault.decode 3) [RecvEvent.msg 5] rfl
  exact ⟨h.1, h.2.1⟩

/-- C9: every error produced in one iteration — whether `run` failed in
its receive/decode step or `handle` failed on a decoded message — reaches
`handle_err` through the single `Err(err) => handle_err(err)?` arm of
`try_run_loop`: the iteration's callbacks end with `handle_err` on that
error, the loop terminates this iteration exactly when `handle_err`
escalates, and whenever `handle_err` returns `Ok` the loop continues with
another receive attempt on the rest of the trace. -/
theorem single_error_path {S M P E : Type} (fromP : P → E) (H : Handler S M E)
    (s s1 : S) (cs : List (CallEvent M E)) (e : E) (ev : RecvEvent M P)
    (rest : List (RecvEvent M P))
    (h : Listener.run fromP H s ev = (s1, cs, Except.error e)) :
    loopStep fromP H s ev =
      ((H.handleErr s1 e).1, cs ++ [CallEvent.callHandleErr e],
       match (H.handleErr s1 e).2 with
       | Except.ok _ => none
       | Except.error e2 => some e2) ∧
    ((H.handleErr s1 e).2 = Except.ok () →
      tryRunLoop fromP H s (ev :: rest) =
        ⟨cs ++ CallEvent.callHandleErr e ::
           (tryRunLoop fromP H (H.handleErr s1 e).1 rest).calls,
         ev :: (tryRunLoop fromP H (H.handleErr s1 e).1 rest).recvs,
         (tryRunLoop fromP H (H.handleErr s1 e).1 rest).state,
         (tryRunLoop fromP H (H.handleErr s1 e).1 rest).outcome⟩) := by
  rcases h2 : H.handleErr s1 e with ⟨s2, r2⟩
  cases r2 with
  | ok u =>
    cases u
    have hstep : loopStep fromP H s ev =
        (s2, cs ++ [CallEvent.callHandleErr e], none) := by
      simp [loopStep, h, h2]
    refine ⟨by simp [hstep], fun _ => ?_⟩
    rw [tryRunLoop_cons_continue hstep]
    simp

  | error e2 =>
    have hstep : loopStep fromP H s ev =
        (s2, cs ++ [CallEvent.callHandleErr e], some e2) := by
      simp [loopStep, h, h2]
    refine ⟨by simp [hstep], fun hc => ?_⟩
    exact absurd hc (by simp)

/-- Witness for `single_error_path`: the accumulating handler absorbs a
receive failure with code 3 and the loop continues to message 5. -/
theorem single_error_path_witness :
    tryRunLoop id absorbAll 0 [RecvEvent.fail 3, RecvEvent.msg 5] =
      ⟨[CallEvent.callHandleErr 3, CallEvent.callHandle 5],
       [RecvEvent.fail 3, RecvEvent.msg 5], 8, none⟩ := by
  have h := single_error_path id absorbAll 0 0 [] 3 (RecvEvent.fail 3)
    [RecvEvent.msg 5] rfl
  have h2 := h.2 rfl
  simpa using h2

/-- Recognizer for `handle` callbacks in a callback trace. -/
def isHandleCall {M E : Type} : CallEvent M E → Bool
  | CallEvent.callHandle _ => true
  | CallEvent.callHandleErr _ => false

/-- Recognizer for `handle_err` callbacks in a callback trace. -/
def isHandleErrCall {M E : Type} : CallEvent M E → Bool
  | CallEvent.callHandle _ => false
  | CallEvent.callHandleErr _ => true

/-- C10 counterexample: one iteration on one received message can invoke
both `handle` and `handle_err`: with the handler whose `handle` always
returns `Err 7` and whose `handle_err` absorbs, the single receive attempt
`msg 1` produces the callbacks `handle 1` and then `handle_err 7` — two
callbacks, one of each kind, for one receive attempt. -/
theorem both_callbacks_one_recv :
    (loopStep id appFail () (RecvEvent.msg 1)).2.1 =
      [CallEvent.callHandle 1, CallEvent.callHandleErr 7] ∧
    (loopStep id appFail () (RecvEvent.msg 1)).2.1.countP isHandleCall = 1 ∧
    (loopStep id appFail () (RecvEvent.msg 1)).2.1.countP isHandleErrCall = 1 :=
  ⟨rfl, rfl, rfl⟩

/-- C10 (amended): every iteration of the loop consumes exactly one
receive event before its callbacks; per receive attempt, `handle` is
invoked at most once and `handle_err` at most once; and when both the
receive/decode step and `handle` succeed, the iteration's callbacks are
exactly one `handle` call — `handle_err` is not invoked.  (`handle` and
`handle_err` can, however, both run in one iteration, when `handle` fails
on a successfully received message.) -/
theorem step_callback_discipline {S M P E : Type} (fromP : P → E)
    (H : Handler S M E) (s : S) (ev : RecvEvent M P) :
    (loopStep fromP H s ev).2.1.countP isHandleCall ≤ 1 ∧
    (loopStep fromP H s ev).2.1.countP isHandleErrCall ≤ 1 ∧
    (∀ m s1, ev = RecvEvent.msg m → H.handle s m = (s1, Except.ok ()) →
      (loopStep fromP H s ev).2.1 = [CallEvent.callHandle m]) := by
  cases ev with
  | msg m =>
    rcases hM : H.handle s m with ⟨s1, r⟩
    cases r with
    | ok u =>
      cases u
      rw [loopStep_msg_ok hM]
      refine ⟨by simp [isHandleCall], by simp [isHandleErrCall], ?_⟩
      intro m2 s2 hev hH
      cases hev
      rfl
    | error e =>
      rcases hE : H.handleErr s1 e with ⟨s2, r2⟩
      have hstep : (loopStep fromP H s (RecvEvent.msg m)).2.1 =
          [CallEvent.callHandle m, CallEvent.callHandleErr e] := by
        cases r2 with
        | ok u => cases u; rw [loopStep_msg_err_ok hM hE]
        | error e2 => rw [loopStep_msg_err_fatal hM hE]
      rw [hstep]
      refine ⟨by simp [isHandleCall, isHandleErrCall],
              by simp [isHandleCall, isHandleErrCall], ?_⟩
      intro m2 s3 hev hH
      cases hev
      rw [hM] at hH
      simp at hH
  | fail p =>
    rcases hE : H.handleErr s (fromP p) with ⟨s2, r2⟩
    have hstep : (loopStep fromP H s (RecvEvent.fail p)).2.1 =
        [CallEvent.callHandleErr (fromP p)] := by
      cases r2 with
      | ok u => cases u; rw [loopStep_fail_ok hE]
      | error e2 => rw [loopStep_fail_fatal hE]
    rw [hstep]
    refine ⟨by simp [isHandleCall], by simp [isHandleErrCall], ?_⟩
    intro m2 s3 hev hH
    cases hev

/-- Witness for `step_callback_discipline`: one successfully handled
message against the accumulating handler yields exactly one `handle`
callback. -/
theorem step_callback_discipline_witness :
    (loopStep id absorbAll 0 (RecvEvent.msg 4)).2.1 =
      [CallEvent.callHandle 4] := by
  have h := step_callback_discipline id absorbAll 0 (RecvEvent.msg 4)
  exact h.2.2 4 4 rfl rfl

/-! Rendering of `PeerSocket` -/

theorem string_append_left_cancel {s x y : String} (h : s ++ x = s ++ y) :
    x = y := by
  have h2 := congrArg String.data h
  rw [String.data_append, String.data_append] at h2
  exact String.ext (List.append_cancel_left h2)

theorem listen_render_ne_connect_render (x y : String) :
    "--listen=" ++ x ≠ "--connect=" ++ y := by
  intro h
  have h2 := congrArg String.data h
  rw [String.data_append, String.data_append] at h2
  simp [show "--listen=".data = ['-', '-', 'l', 'i', 's', 't', 'e', 'n', '='] from rfl,
        show "--connect=".data = ['-', '-', 'c', 'o', 'n', 'n', 'e', 'c', 't', '='] from rfl]
    at h2

/-- C8: `Listen addr` renders as `--listen=<addr>` and `Connect id` as
`--connect=<id>`, and the rendering is injective: a `Listen` and a
`Connect` value never render alike (the prefixes differ), and two values
of the same variant with different payloads render differently whenever
the payload renderings (those of the external `SocketAddr` / `NodeAddr`
types, modelled by `showA` / `showN`) are themselves injective. -/
theorem peerSocket_display_spec {A N : Type} (showA : A → String)
    (showN : N → String) (hA : Function.Injective showA)
    (hN : Function.Injective showN) :
    (∀ a, PeerSocket.display showA showN (PeerSocket.Listen a) =
        "--listen=" ++ showA a) ∧
    (∀ n, PeerSocket.display showA showN (PeerSocket.Connect n) =
        "--connect=" ++ showN n) ∧
    Function.Injective (PeerSocket.display showA showN) := by
  refine ⟨fun a => rfl, fun n => rfl, ?_⟩
  intro x y hxy
  cases x with
  | Listen a =>
    cases y with
    | Listen b =>
      have hab : showA a = showA b := string_append_left_cancel hxy
      rw [hA hab]
    | Connect b => exact absurd hxy (listen_render_ne_connect_render _ _)
  | Connect a =>
    cases y with
    | Listen b => exact absurd hxy.symm (listen_render_ne_connect_render _ _)
    | Connect b =>
      have hab : showN a = showN b := string_append_left_cancel hxy
      rw [hN hab]

/-- Injective stand-in for the rendering of the external local socket
address type, used in the witness. -/
def showBoolA : Bool → String := fun b => if b then "a1" else "a0"

/-- Injective stand-in for the rendering of the external remote node
address type, used in the witness. -/
def showBoolN : Bool → String := fun b => if b then "n1" else "n0"

/-- Witness for `peerSocket_display_spec`: concrete renderings and a
concrete cross-variant distinctness. -/
theorem peerSocket_display_spec_witness :
    PeerSocket.display showBoolA showBoolN (PeerSocket.Listen true) =
      "--listen=" ++ "a1" ∧
    PeerSocket.display showBoolA showBoolN (PeerSocket.Connect false) =
      "--connect=" ++ "n0" ∧
    PeerSocket.display showBoolA showBoolN (PeerSocket.Listen true) ≠
      PeerSocket.display showBoolA showBoolN (PeerSocket.Connect true) := by
  have h := peerSocket_display_spec showBoolA showBoolN (by decide) (by decide)
  refine ⟨h.1 true, h.2.1 false, fun hc => ?_⟩
  exact absurd (h.2.2 hc) (by decide)

end Peer
